import Mathlib

set_option linter.dupNamespace false
set_option linter.unusedVariables false

/-!
# DrKonqi: shutdown report saving, environment overrides, crash-catching set-up,
# and materialization of Bugzilla products

A shallow embedding of `src/drkonqi.cpp` and
`src/bugzillaintegration/libbugzilla/models/product.cpp`.

Stateful C++ code is embedded as explicit state passing.  Calls into Qt whose
outcome depends on the outside world (whether `mkpath`, `remove` or `open`
succeed, environment variables, signals emitted by the backtrace generator) are
inputs of the model.
-/

namespace DrKonqi

/-! ## The cache directory and the shutdown helper -/

/-- One entry of the cache directory, as `QDir::entryInfoList` reports it. -/
structure QFileInfo where
  fileName : String
  lastModified : Nat
  isFile : Bool
  contents : String
deriving DecidableEq, Repr

/-- Calls made by the shutdown helper into Qt, recorded in program order. -/
inductive Call where
  | mkpath
  | quit
  | entryInfoList
  | remove (fileName : String)
  | openFile (fileName : String)
  | write (fileName : String) (text : String)
  | deleteLater
deriving DecidableEq, Repr

/-- What the surroundings answer to the shutdown helper: whether `QDir::mkpath`
succeeds, for which names `QDir::remove` succeeds, whether `QFile::open` is
permitted, the crashed pid (`DrKonqi::pid()`), the result of
`getSuggestedKCrashFilename(DrKonqi::crashedApplication())` (a plain file name;
the function is declared outside this file), and the modification time a file
written now receives. -/
structure Env where
  mkpathOk : Bool
  canRemove : String → Bool
  openOk : Bool
  pid : Int
  suggestedKCrashFilename : String
  now : Nat

/-- The cache directory (its entries) together with the calls made so far. -/
structure World where
  dir : List QFileInfo
  calls : List Call
deriving DecidableEq, Repr

/-- The object `ShutdownHelper`: its accumulated text, and whether `deleteLater()`
has been called on it. -/
structure ShutdownHelper where
  shutdownSaveString : String
  deleteLaterCalled : Bool
deriving DecidableEq, Repr

/-- The order `QDir::Time | QDir::Reversed` puts entries in: oldest first. -/
def olderFirst (a b : QFileInfo) : Prop := a.lastModified ≤ b.lastModified

instance : DecidableRel olderFirst := fun a b =>
  inferInstanceAs (Decidable (a.lastModified ≤ b.lastModified))

/-- The regular files of a directory (filter `QDir::Files | QDir::NoDotAndDotDot`). -/
def regularFiles (dir : List QFileInfo) : List QFileInfo :=
  dir.filter (fun e => e.isFile)

/-- `dir.entryInfoList(QDir::Files | QDir::NoDotAndDotDot, QDir::Time | QDir::Reversed)`:
the regular files, oldest modification time first.  (Qt orders entries of equal
modification time by name; here they keep their directory order.) -/
def entryInfoList (dir : List QFileInfo) : List QFileInfo :=
  (regularFiles dir).insertionSort olderFirst

/-- `dir.remove(fileName)`: the entry of that name disappears when the removal
succeeds, and nothing changes when it fails. -/
def QDir.remove (env : Env) (dir : List QFileInfo) (fileName : String) : List QFileInfo :=
  if env.canRemove fileName then dir.filter (fun e => e.fileName != fileName) else dir

/-- The loop `for (int i = fileList.size(); i >= 10; i--)` of `removeOldFilesIn`.
`none` stands for `takeFirst()` on an empty list, which `QList` does not define. -/
def removeOldFilesIn.loop (env : Env) : Nat → List QFileInfo → World → Option World
  | 0, _, w => some w
  | i + 1, fileList, w =>
    if i + 1 ≥ 10 then
      match fileList with
      | [] => none
      | currentFile :: rest =>
        removeOldFilesIn.loop env i rest
          { dir := QDir.remove env w.dir currentFile.fileName
            calls := w.calls ++ [Call.remove currentFile.fileName] }
    else some w

/-- `ShutdownHelper::removeOldFilesIn(QDir &dir)`. -/
def removeOldFilesIn (env : Env) (w : World) : Option World :=
  let fileList := entryInfoList w.dir
  removeOldFilesIn.loop env fileList.length fileList
    { w with calls := w.calls ++ [Call.entryInfoList] }

/-- `qApp->quit()`: asks the event loop to exit and returns to the caller. -/
def qAppQuit (w : World) : World :=
  { w with calls := w.calls ++ [Call.quit] }

/-- The file name part of `defname`:
`"pid-" + QString::number(DrKonqi::pid()) + '-' + getSuggestedKCrashFilename(...)`.
`defname` itself is `dirname + '/'` followed by this name, so that the report is
the entry of this name in the cache directory. -/
def defname (env : Env) : String :=
  "pid-" ++ toString env.pid ++ "-" ++ env.suggestedKCrashFilename

/-- Whether `shutdownSaveFile.open(QIODevice::WriteOnly | QIODevice::Text)` succeeds:
the surroundings permit it and the name is not taken by an entry that is not a
regular file. -/
def canOpen (env : Env) (dir : List QFileInfo) (fileName : String) : Bool :=
  env.openOk && dir.all (fun e => e.fileName != fileName || e.isFile)

/-- Opening write-only truncates or creates the file; the text stream then writes
`text` and the file is closed.  (Text mode leaves the text as it is on Unix.) -/
def writeFile (env : Env) (dir : List QFileInfo) (fileName text : String) : List QFileInfo :=
  dir.filter (fun e => e.fileName != fileName) ++
    [{ fileName := fileName, lastModified := env.now, isFile := true, contents := text }]

/-- `ShutdownHelper::saveReportAndQuit()`.  After a failed `mkpath` the code calls
`qApp->quit()` and, there being no `return`, goes on with the rest of the body. -/
def saveReportAndQuit (env : Env) (h : ShutdownHelper) (w : World) :
    Option (ShutdownHelper × World) :=
  let w0 : World := { w with calls := w.calls ++ [Call.mkpath] }
  let w1 : World := if !env.mkpathOk then qAppQuit w0 else w0
  match removeOldFilesIn env w1 with
  | none => none
  | some w2 =>
    let w3 : World := { w2 with calls := w2.calls ++ [Call.openFile (defname env)] }
    let w4 : World :=
      if canOpen env w3.dir (defname env) then
        { dir := writeFile env w3.dir (defname env) h.shutdownSaveString
          calls := w3.calls ++ [Call.write (defname env) h.shutdownSaveString] }
      else w3
    let w5 : World := { w4 with calls := w4.calls ++ [Call.deleteLater] }
    some ({ h with deleteLaterCalled := true }, qAppQuit w5)

/-- `ShutdownHelper::appendNewLine(const QString &newLine)`. -/
def appendNewLine (h : ShutdownHelper) (newLine : String) : ShutdownHelper :=
  { h with shutdownSaveString := h.shutdownSaveString ++ newLine }

/-- The directory after `dir.remove` has been called for each of `files` in turn. -/
def removeEach (env : Env) (files : List QFileInfo) (dir : List QFileInfo) : List QFileInfo :=
  files.foldl (fun d f => QDir.remove env d f.fileName) dir

/-- The files `removeOldFilesIn` takes from the front of the listing: all but the
last 9 of it. -/
def oldFiles (dir : List QFileInfo) : List QFileInfo :=
  (entryInfoList dir).take ((entryInfoList dir).length - 9)

/-- The directory once `dir.remove` has been called for each of `oldFiles dir`. -/
def afterRemoval (env : Env) (dir : List QFileInfo) : List QFileInfo :=
  removeEach env (oldFiles dir) dir

/-- The calls one run of `saveReportAndQuit` makes, on directory `dir` with text
`text` accumulated. -/
def callsOfRun (env : Env) (dir : List QFileInfo) (text : String) : List Call :=
  [Call.mkpath] ++ (if env.mkpathOk then [] else [Call.quit]) ++ [Call.entryInfoList] ++
    (oldFiles dir).map (fun f => Call.remove f.fileName) ++ [Call.openFile (defname env)] ++
    (if canOpen env (afterRemoval env dir) (defname env) then
      [Call.write (defname env) text] else []) ++
    [Call.deleteLater, Call.quit]

/-- The directory one run of `saveReportAndQuit` leaves, on directory `dir` with text
`text` accumulated. -/
def dirAfterRun (env : Env) (dir : List QFileInfo) (text : String) : List QFileInfo :=
  if canOpen env (afterRemoval env dir) (defname env) then
    writeFile env (afterRemoval env dir) (defname env) text
  else afterRemoval env dir

instance : IsTotal QFileInfo olderFirst := ⟨fun a b => Nat.le_total a.lastModified b.lastModified⟩

instance : IsTrans QFileInfo olderFirst := ⟨fun _ _ _ h1 h2 => Nat.le_trans h1 h2⟩

/-! ## Signals of the backtrace generator and their delivery -/

/-- The signals of `BacktraceGenerator` that `DrKonqi::shutdownSaveReport` connects. -/
inductive Signal where
  | newLine (line : String)
  | done
  | someError
  | failedToStart
deriving DecidableEq, Repr

/-- The slots of `ShutdownHelper`. -/
inductive Slot where
  | saveReportAndQuit
  | appendNewLine
deriving DecidableEq, Repr

/-- Which signal a connection listens to. -/
inductive SignalKind where
  | newLine
  | done
  | someError
  | failedToStart
deriving DecidableEq, Repr

/-- The kind of an emitted signal. -/
def Signal.kind : Signal → SignalKind
  | Signal.newLine _ => SignalKind.newLine
  | Signal.done => SignalKind.done
  | Signal.someError => SignalKind.someError
  | Signal.failedToStart => SignalKind.failedToStart

/-- Whether a signal is one of the three that end the task. -/
def Signal.isTerminal : Signal → Bool
  | Signal.newLine _ => false
  | _ => true

/-- The three signals that end the task. -/
inductive Terminal where
  | done
  | someError
  | failedToStart
deriving DecidableEq, Repr

/-- The signal a terminal signal is. -/
def Terminal.signal : Terminal → Signal
  | Terminal.done => Signal.done
  | Terminal.someError => Signal.someError
  | Terminal.failedToStart => Signal.failedToStart

/-- The helper object (`none` once it has been destroyed), the signal connections
made to it, and the world it acts on. -/
structure System where
  shutdownHelper : Option ShutdownHelper
  connections : List (SignalKind × Slot)
  world : World
deriving DecidableEq, Repr

/-- `DrKonqi::shutdownSaveReport()` up to `btGenerator->start()`: a fresh helper with
an empty `shutdownSaveString`, and the four `QObject::connect` calls in order. -/
def shutdownSaveReport (dir : List QFileInfo) : System :=
  { shutdownHelper := some { shutdownSaveString := "", deleteLaterCalled := false }
    connections :=
      [ (SignalKind.done, Slot.saveReportAndQuit),
        (SignalKind.someError, Slot.saveReportAndQuit),
        (SignalKind.failedToStart, Slot.saveReportAndQuit),
        (SignalKind.newLine, Slot.appendNewLine) ]
    world := { dir := dir, calls := [] } }

/-- One slot invocation.  A destroyed receiver has no connections left, so nothing
is invoked on it. -/
def invoke (env : Env) (slot : Slot) (sig : Signal) (sys : System) : Option System :=
  match sys.shutdownHelper with
  | none => some sys
  | some h =>
    match slot, sig with
    | Slot.saveReportAndQuit, _ =>
      match saveReportAndQuit env h sys.world with
      | none => none
      | some (h', w') => some { sys with shutdownHelper := some h', world := w' }
    | Slot.appendNewLine, Signal.newLine line =>
      some { sys with shutdownHelper := some (appendNewLine h line) }
    | Slot.appendNewLine, _ => some sys

/-- Runs the slots connected to the kind of `sig`, in connection order. -/
def emitTo (env : Env) (sig : Signal) : List (SignalKind × Slot) → System → Option System
  | [], sys => some sys
  | (k, slot) :: rest, sys =>
    if k = sig.kind then
      match invoke env slot sig sys with
      | none => none
      | some sys' => emitTo env sig rest sys'
    else emitTo env sig rest sys

/-- The generator emits `sig` (direct connections: the slots run before `emit`
returns). -/
def emit (env : Env) (sig : Signal) (sys : System) : Option System :=
  emitTo env sig sys.connections sys

/-- Control returns to the event loop: an object on which `deleteLater()` was called
is destroyed. -/
def eventLoop (sys : System) : System :=
  match sys.shutdownHelper with
  | some h => if h.deleteLaterCalled then { sys with shutdownHelper := none } else sys
  | none => sys

/-- What happens to the system: the generator emits a signal, or control returns
to the event loop. -/
inductive Event where
  | emit (sig : Signal)
  | eventLoop
deriving DecidableEq, Repr

/-- One event. -/
def step (env : Env) (sys : System) : Event → Option System
  | Event.emit sig => emit env sig sys
  | Event.eventLoop => some (eventLoop sys)

/-- A sequence of events, in order. -/
def run (env : Env) : System → List Event → Option System
  | sys, [] => some sys
  | sys, ev :: rest =>
    match step env sys ev with
    | none => none
    | some sys' => run env sys' rest

/-- The events in which the generator emits `newLine` for each of `lines` in turn. -/
def newLines (lines : List String) : List Event :=
  lines.map (fun line => Event.emit (Signal.newLine line))

/-- How often `saveReportAndQuit` has run: each run calls `mkpath` once, first thing. -/
def finalizerRuns (w : World) : Nat :=
  w.calls.count Call.mkpath

/-- The `write` calls among the calls made. -/
def writes (w : World) : List Call :=
  w.calls.filter (fun c => match c with
    | Call.write _ _ => true
    | _ => false)

/-- A regular file of the given name and modification time. -/
def sampleFile (fileName : String) (lastModified : Nat) : QFileInfo :=
  { fileName := fileName, lastModified := lastModified, isFile := true, contents := "old" }

/-- Twelve regular files with pairwise distinct modification times. -/
def sampleDir : List QFileInfo :=
  [ sampleFile "k" 30, sampleFile "a" 11, sampleFile "c" 13, sampleFile "l" 42,
    sampleFile "b" 12, sampleFile "e" 15, sampleFile "d" 14, sampleFile "g" 17,
    sampleFile "f" 16, sampleFile "h" 18, sampleFile "j" 20, sampleFile "i" 19 ]

/-- Surroundings in which the cache directory cannot be created: `mkpath` fails, and
so does opening a file inside the missing directory. -/
def noCacheDirEnv : Env :=
  { mkpathOk := false, canRemove := fun _ => true, openOk := false, pid := 7,
    suggestedKCrashFilename := "app.kcrash", now := 100 }

/-- Surroundings in which every call succeeds; the report is named `pid-7-app.kcrash`. -/
def sampleEnv : Env :=
  { mkpathOk := true, canRemove := fun _ => true, openOk := true, pid := 7,
    suggestedKCrashFilename := "app.kcrash", now := 100 }

end DrKonqi

namespace DrKonqi

/-! ## Environment overrides -/

/-- The process environment: the value of a variable, `none` when it is not set.
(Values are taken as already decoded by `QString::fromLocal8Bit`.) -/
abbrev Environment := String → Option String

/-- `qEnvironmentVariableIsSet(name)`. -/
def qEnvironmentVariableIsSet (e : Environment) (name : String) : Bool :=
  (e name).isSome

/-- `qgetenv(name)`: the value, empty when the variable is not set. -/
def qgetenv (e : Environment) (name : String) : String :=
  (e name).getD ""

/-- `DrKonqi::ignoreQuality()`.  The argument `ignore` is the function-local static
(`none` until its initializer has run); the result is the returned value and the
static afterwards. -/
def ignoreQuality (e : Environment) (ignore : Option Bool) : Bool × Option Bool :=
  match ignore with
  | some b => (b, some b)
  | none =>
    let b := qEnvironmentVariableIsSet e "DRKONQI_IGNORE_QUALITY" ||
      qEnvironmentVariableIsSet e "DRKONQI_TEST_MODE"
    (b, some b)

/-- `DrKonqi::kdeBugzillaURL()`.  The argument `url` is the function-local static
(empty at process start); the result is the returned value and the static
afterwards. -/
def kdeBugzillaURL (e : Environment) (url : String) : String × String :=
  if url ≠ "" then (url, url)
  else
    let url := qgetenv e "DRKONQI_KDE_BUGZILLA_URL"
    if url ≠ "" then (url, url)
    else if qEnvironmentVariableIsSet e "DRKONQI_TEST_MODE" then
      ("https://bugstest.kde.org/", "https://bugstest.kde.org/")
    else
      ("https://bugs.kde.org/", "https://bugs.kde.org/")

/-- An environment in which only `DRKONQI_KDE_BUGZILLA_URL` is set, to the empty
string. -/
def emptyOverride : Environment :=
  fun name => if name = "DRKONQI_KDE_BUGZILLA_URL" then some "" else none

/-! ## Crash catching set up by `DrKonqi::init` -/

/-- What `init` acts on: the arguments `KCrash::setDrKonqiEnabled` was called with,
and the intervals (ms) of the timers started by `EnableCrashCatchingDelayed` objects. -/
structure CrashCatching where
  setDrKonqiEnabled : List Bool
  timers : List Nat
deriving DecidableEq, Repr

/-- The constructor of `EnableCrashCatchingDelayed`: `startTimer(10000)`. -/
def EnableCrashCatchingDelayed (st : CrashCatching) : CrashCatching :=
  { st with timers := st.timers ++ [10000] }

/-- `DrKonqi::init()`.  `backendInit` is what `m_backend->init()` returns and
`fakeExecutableBaseName` what `crashedApplication()->fakeExecutableBaseName()`
returns. -/
def init (backendInit : Bool) (fakeExecutableBaseName : String) (st : CrashCatching) :
    Bool × CrashCatching :=
  if !backendInit then (false, st)
  else
    if fakeExecutableBaseName ≠ "drkonqi" then
      (true, { st with setDrKonqiEnabled := st.setDrKonqiEnabled ++ [true] })
    else
      (true, EnableCrashCatchingDelayed st)

end DrKonqi

namespace Bugzilla

/-! ## Materialization of products from untyped records -/

/-- The values a `QVariant` of an untyped record holds. -/
inductive QVariant where
  | invalid
  | bool (b : Bool)
  | int (i : Int)
  | string (s : String)
  | list (l : List QVariant)
  | hash (h : List (String × QVariant))

/-- A `QVariantHash`, as the list of its entries in iteration order. -/
abbrev QVariantHash := List (String × QVariant)

/-- `QVariant::isValid()`. -/
def QVariant.isValid : QVariant → Bool
  | QVariant.invalid => false
  | _ => true

/-- `QVariant::toHash()`: the hash held, and an empty hash for any other variant. -/
def QVariant.toHash : QVariant → QVariantHash
  | QVariant.hash h => h
  | _ => []

/-- `qPrintable(key)`, read as the `const char *` that `setProperty` receives: the
local 8-bit form of the key (UTF-8), which as a C string ends at its first NUL. -/
def qPrintable (key : String) : String :=
  String.mk (key.data.takeWhile (fun c => c != Char.ofNat 0))

/-- The two conversions `Product::registerVariantConverters` registers. -/
inductive Converter where
  | toProductComponentList
  | toProductVersionList
deriving DecidableEq, Repr

/-- The static `convertersRegistered` and the calls of `QMetaType::registerConverter`
made so far, in order. -/
structure Registry where
  convertersRegistered : Bool
  registerConverter : List Converter
deriving DecidableEq, Repr

/-- The state at process start. -/
def Registry.initial : Registry :=
  { convertersRegistered := false, registerConverter := [] }

/-- `Product::registerVariantConverters()`. -/
def Product.registerVariantConverters (r : Registry) : Registry :=
  if r.convertersRegistered then r
  else
    { convertersRegistered := true
      registerConverter := r.registerConverter ++
        [Converter.toProductComponentList, Converter.toProductVersionList] }

/-- The property table of a class whose properties are member properties: for a
declared name, the conversion of a variant to the declared type (`none` when the
variant cannot be converted).  The tables are declared in `product.h`. -/
abbrev MetaObject := String → Option (QVariant → Option QVariant)

/-- The state of a `QObject` with member properties: the declared members that have
been written, and the dynamic properties, both as `QObject::property` reads them. -/
structure QObject where
  members : String → Option QVariant
  dynamicProperties : String → Option QVariant

/-- A freshly constructed object. -/
def QObject.fresh : QObject :=
  { members := fun _ => none, dynamicProperties := fun _ => none }

/-- `QObject::setProperty(name, value)`: a declared property is written when the
value converts to its type; any other name sets a dynamic property, or removes it
when the value is invalid. -/
def QObject.setProperty (metaObject : MetaObject) (o : QObject) (name : String)
    (value : QVariant) : QObject :=
  match metaObject name with
  | some convert =>
    match convert value with
    | some v => { o with members := Function.update o.members name (some v) }
    | none => o
  | none =>
    { o with dynamicProperties :=
        Function.update o.dynamicProperties name (if value.isValid then some value else none) }

/-- A `ProductVersion` object. -/
structure ProductVersion extends QObject

/-- A `ProductComponent` object. -/
structure ProductComponent extends QObject

/-- `ProductVersion::ProductVersion(const QVariantHash &object, QObject *parent)`. -/
def ProductVersion.ProductVersion (metaObject : MetaObject) (object : QVariantHash) :
    ProductVersion :=
  { toQObject := object.foldl
      (fun o it => QObject.setProperty metaObject o (qPrintable it.1) it.2) QObject.fresh }

/-- `ProductComponent::ProductComponent(const QVariantHash &object, QObject *parent)`. -/
def ProductComponent.ProductComponent (metaObject : MetaObject) (object : QVariantHash) :
    ProductComponent :=
  { toQObject := object.foldl
      (fun o it => QObject.setProperty metaObject o (qPrintable it.1) it.2) QObject.fresh }

/-- What `product.h` declares for `Product` and its children: the names of the three
properties written through `setActive`, `setComponents` and `setVersions`, the
conversion of a variant to `bool`, the initial value of `m_active`, further member
properties, and the property tables of the children. -/
structure ProductMeta where
  is_active : String
  components : String
  versions : String
  toBool : QVariant → Option Bool
  defaultActive : Bool
  members : MetaObject
  component : MetaObject
  version : MetaObject

/-- A `Product` object. -/
structure Product extends QObject where
  m_active : Bool
  m_components : List ProductComponent
  m_versions : List ProductVersion

/-- The converter registered for `QList<ProductComponent *>`. -/
def toProductComponentList (m : ProductMeta) (v : List QVariant) : List ProductComponent :=
  v.map (fun variant => ProductComponent.ProductComponent m.component variant.toHash)

/-- The converter registered for `QList<ProductVersion *>`. -/
def toProductVersionList (m : ProductMeta) (v : List QVariant) : List ProductVersion :=
  v.map (fun variant => ProductVersion.ProductVersion m.version variant.toHash)

/-- `Product::setActive`. -/
def Product.setActive (p : Product) (active : Bool) : Product :=
  { p with m_active := active }

/-- `Product::setComponents`. -/
def Product.setComponents (p : Product) (components : List ProductComponent) : Product :=
  { p with m_components := components }

/-- `Product::setVersions`. -/
def Product.setVersions (p : Product) (versions : List ProductVersion) : Product :=
  { p with m_versions := versions }

/-- `setProperty(name, value)` on a `Product`.  A `QVariantList` converts to one of
the two list types through the converter registered for it, and no other variant
converts to them. -/
def Product.setProperty (m : ProductMeta) (r : Registry) (p : Product) (name : String)
    (value : QVariant) : Product :=
  if name = m.is_active then
    match m.toBool value with
    | some b => p.setActive b
    | none => p
  else if name = m.components then
    match value with
    | QVariant.list v =>
      if Converter.toProductComponentList ∈ r.registerConverter then
        p.setComponents (toProductComponentList m v)
      else p
    | _ => p
  else if name = m.versions then
    match value with
    | QVariant.list v =>
      if Converter.toProductVersionList ∈ r.registerConverter then
        p.setVersions (toProductVersionList m v)
      else p
    | _ => p
  else { p with toQObject := QObject.setProperty m.members p.toQObject name value }

/-- A freshly constructed `Product`, before the loop of the constructor. -/
def Product.fresh (m : ProductMeta) : Product :=
  { toQObject := QObject.fresh, m_active := m.defaultActive, m_components := [],
    m_versions := [] }

/-- `Product::Product(const QVariantHash &object, const Connection &connection,
QObject *parent)`: the object built, and the registry afterwards. -/
def Product.Product (m : ProductMeta) (r : Registry) (object : QVariantHash) :
    Product × Registry :=
  let r' := Product.registerVariantConverters r
  (object.foldl (fun p it => Product.setProperty m r' p (qPrintable it.1) it.2)
    (Product.fresh m), r')

/-- A registry in which the flag is set only if both converters are registered, as
in every state `Product.registerVariantConverters` reaches from the state at process start. -/
def Registry.consistent (r : Registry) : Prop :=
  r.convertersRegistered = true →
    Converter.toProductComponentList ∈ r.registerConverter ∧
    Converter.toProductVersionList ∈ r.registerConverter

instance (r : Registry) : Decidable r.consistent := by
  unfold Registry.consistent
  exact inferInstance

/-- `QVariant::toBool` for the variants that convert to `bool`. -/
def sampleToBool : QVariant → Option Bool
  | QVariant.bool b => some b
  | QVariant.int i => some (i != 0)
  | _ => none

/-- A property table: `name` is a member property holding a string. -/
def sampleMetaObject : MetaObject :=
  fun name =>
    if name = "name" then
      some (fun v => match v with
        | QVariant.string s => some (QVariant.string s)
        | _ => none)
    else none

/-- Property names `is_active`, `components` and `versions`. -/
def sampleMeta : ProductMeta :=
  { is_active := "is_active", components := "components", versions := "versions",
    toBool := sampleToBool, defaultActive := false, members := fun _ => none,
    component := sampleMetaObject, version := sampleMetaObject }

/-- The key `is_active` followed by a NUL character and `x`. -/
def nulKey : String :=
  "is_active" ++ String.singleton (Char.ofNat 0) ++ "x"

/-- A record with two distinct keys that have the same property name `is_active`. -/
def nulRecord : QVariantHash :=
  [("is_active", QVariant.bool true), (nulKey, QVariant.bool false)]

/-- The entries of `nulRecord` in the other order. -/
def nulRecordSwapped : QVariantHash :=
  [(nulKey, QVariant.bool false), ("is_active", QVariant.bool true)]

/-- A product record with two components and one version. -/
def sampleRecord : QVariantHash :=
  [ ("is_active", QVariant.bool true),
    ("components", QVariant.list
      [ QVariant.hash [("name", QVariant.string "general")],
        QVariant.hash [("name", QVariant.string "backtraceparsing")] ]),
    ("versions", QVariant.list [QVariant.hash [("name", QVariant.string "5.18")]]),
    ("description", QVariant.string "crash handler") ]

/-- The entries of `sampleRecord` with the first two exchanged. -/
def sampleRecordSwapped : QVariantHash :=
  [ ("components", QVariant.list
      [ QVariant.hash [("name", QVariant.string "general")],
        QVariant.hash [("name", QVariant.string "backtraceparsing")] ]),
    ("is_active", QVariant.bool true),
    ("versions", QVariant.list [QVariant.hash [("name", QVariant.string "5.18")]]),
    ("description", QVariant.string "crash handler") ]

end Bugzilla

namespace DrKonqi

/-! ## The retention loop -/

theorem loop_eq (env : Env) : ∀ (i : Nat) (l : List QFileInfo) (w : World),
    i - 9 ≤ l.length →
    removeOldFilesIn.loop env i l w =
      some { dir := removeEach env (l.take (i - 9)) w.dir
             calls := w.calls ++ (l.take (i - 9)).map (fun f => Call.remove f.fileName) } := by
  intro i
  induction i with
  | zero => intro l w _; simp [removeOldFilesIn.loop, removeEach]
  | succ i ih =>
    intro l w hl
    unfold removeOldFilesIn.loop
    by_cases h10 : i + 1 ≥ 10
    · rw [if_pos h10]
      cases l with
      | nil => simp at hl; omega
      | cons f rest =>
        have e1 : i + 1 - 9 = (i - 9) + 1 := by omega
        have hl2 : i - 9 ≤ rest.length := by simp at hl; omega
        simp only [ih rest _ hl2, e1, List.take_succ_cons, List.map_cons, removeEach,
          List.foldl_cons, List.append_assoc, List.singleton_append]
    · rw [if_neg h10]
      have e0 : i + 1 - 9 = 0 := by omega
      simp [e0, removeEach]

theorem removeOldFilesIn_eq (env : Env) (w : World) :
    removeOldFilesIn env w = some
      { dir := afterRemoval env w.dir
        calls := w.calls ++ [Call.entryInfoList] ++
          (oldFiles w.dir).map (fun f => Call.remove f.fileName) } := by
  unfold removeOldFilesIn
  simp only []
  rw [loop_eq env _ _ _ (by omega)]
  rfl

theorem saveReportAndQuit_eq (env : Env) (h : ShutdownHelper) (w : World) :
    saveReportAndQuit env h w = some
      ({ h with deleteLaterCalled := true },
       { dir := dirAfterRun env w.dir h.shutdownSaveString
         calls := w.calls ++ callsOfRun env w.dir h.shutdownSaveString }) := by
  unfold saveReportAndQuit
  simp only [removeOldFilesIn_eq]
  cases hmk : env.mkpathOk <;> cases hop : canOpen env (afterRemoval env w.dir) (defname env) <;>
    simp [qAppQuit, callsOfRun, dirAfterRun, hmk, hop]

theorem removeEach_subset (env : Env) :
    ∀ (files dir : List QFileInfo) (e : QFileInfo), e ∈ removeEach env files dir → e ∈ dir := by
  intro files
  induction files with
  | nil => intro dir e h; simpa [removeEach] using h
  | cons f rest ih =>
    intro dir e h
    have h1 := ih (QDir.remove env dir f.fileName) e (by simpa [removeEach] using h)
    unfold QDir.remove at h1
    split at h1
    · exact (List.mem_filter.mp h1).1
    · exact h1

theorem afterRemoval_subset (env : Env) (dir : List QFileInfo) (e : QFileInfo)
    (h : e ∈ afterRemoval env dir) : e ∈ dir :=
  removeEach_subset env _ _ e h

theorem canOpen_afterRemoval (env : Env) (dir : List QFileInfo) (name : String)
    (h : canOpen env dir name = true) : canOpen env (afterRemoval env dir) name = true := by
  simp only [canOpen, Bool.and_eq_true, List.all_eq_true] at h ⊢
  exact ⟨h.1, fun e he => h.2 e (afterRemoval_subset env dir e he)⟩

theorem mem_dirAfterRun (env : Env) (dir : List QFileInfo) (text : String) (e : QFileInfo)
    (h : e ∈ dirAfterRun env dir text) : e ∈ dir ∨ e.fileName = defname env := by
  unfold dirAfterRun at h
  split at h
  · simp only [writeFile, List.mem_append, List.mem_filter, List.mem_singleton] at h
    rcases h with h | h
    · exact Or.inl (afterRemoval_subset env dir e h.1)
    · exact Or.inr (by rw [h])
  · exact Or.inl (afterRemoval_subset env dir e h)

theorem count_mkpath_removes (files : List QFileInfo) :
    (files.map (fun f => Call.remove f.fileName)).count Call.mkpath = 0 := by
  induction files with
  | nil => rfl
  | cons f rest ih => simp [List.count_cons, ih]

theorem finalizerRuns_callsOfRun (env : Env) (dir : List QFileInfo) (text : String) :
    (callsOfRun env dir text).count Call.mkpath = 1 := by
  unfold callsOfRun
  simp only [List.count_append, count_mkpath_removes]
  cases env.mkpathOk <;> cases canOpen env (afterRemoval env dir) (defname env) <;> simp

theorem writes_removes (files : List QFileInfo) :
    (files.map (fun f => Call.remove f.fileName)).filter (fun c => match c with
      | Call.write _ _ => true
      | _ => false) = [] := by
  induction files with
  | nil => rfl
  | cons f rest ih => simp [List.filter_cons, ih]

theorem writes_callsOfRun (env : Env) (dir : List QFileInfo) (text : String) :
    (callsOfRun env dir text).filter (fun c => match c with
      | Call.write _ _ => true
      | _ => false) =
      if canOpen env (afterRemoval env dir) (defname env) then [Call.write (defname env) text]
      else [] := by
  unfold callsOfRun
  simp only [List.filter_append, writes_removes]
  cases env.mkpathOk <;> cases canOpen env (afterRemoval env dir) (defname env) <;> simp

/-- The connections `shutdownSaveReport` makes. -/
theorem connections_shutdownSaveReport (dir : List QFileInfo) :
    (shutdownSaveReport dir).connections =
      [ (SignalKind.done, Slot.saveReportAndQuit),
        (SignalKind.someError, Slot.saveReportAndQuit),
        (SignalKind.failedToStart, Slot.saveReportAndQuit),
        (SignalKind.newLine, Slot.appendNewLine) ] := rfl

theorem emit_newLine (env : Env) (h : ShutdownHelper) (w : World) (line : String) :
    emit env (Signal.newLine line)
        { shutdownHelper := some h, connections := (shutdownSaveReport []).connections,
          world := w } =
      some { shutdownHelper := some (appendNewLine h line),
             connections := (shutdownSaveReport []).connections, world := w } := by
  simp [emit, emitTo, connections_shutdownSaveReport, Signal.kind, invoke]

theorem emit_terminal (env : Env) (h : ShutdownHelper) (w : World) (t : Terminal) :
    emit env t.signal
        { shutdownHelper := some h, connections := (shutdownSaveReport []).connections,
          world := w } =
      some { shutdownHelper := some { h with deleteLaterCalled := true },
             connections := (shutdownSaveReport []).connections,
             world := { dir := dirAfterRun env w.dir h.shutdownSaveString
                        calls := w.calls ++ callsOfRun env w.dir h.shutdownSaveString } } := by
  cases t <;>
    simp [emit, emitTo, connections_shutdownSaveReport, Signal.kind, Terminal.signal, invoke,
      saveReportAndQuit_eq]

theorem emit_destroyed (env : Env) (w : World) (sig : Signal) :
    emit env sig
        { shutdownHelper := none, connections := (shutdownSaveReport []).connections,
          world := w } =
      some { shutdownHelper := none, connections := (shutdownSaveReport []).connections,
             world := w } := by
  cases sig <;>
    simp [emit, emitTo, connections_shutdownSaveReport, Signal.kind, invoke]

theorem join_append_aux (lines : List String) (acc : String) :
    lines.foldl (fun r s => r ++ s) acc = acc ++ String.join lines := by
  induction lines generalizing acc with
  | nil => simp [String.join]
  | cons l ls ih =>
    simp only [List.foldl_cons, String.join]
    rw [ih (acc ++ l), ih ("" ++ l)]
    simp [String.append_assoc]

theorem join_cons (l : String) (ls : List String) :
    String.join (l :: ls) = l ++ String.join ls := by
  simp only [String.join, List.foldl_cons]
  rw [join_append_aux ls ("" ++ l)]
  simp [String.join]

theorem run_newLines (env : Env) (w : World) (lines : List String) :
    ∀ (h : ShutdownHelper) (rest : List Event),
      run env { shutdownHelper := some h, connections := (shutdownSaveReport []).connections,
                world := w } (newLines lines ++ rest) =
        run env { shutdownHelper :=
                    some { h with shutdownSaveString := h.shutdownSaveString ++ String.join lines }
                  connections := (shutdownSaveReport []).connections
                  world := w } rest := by
  induction lines with
  | nil => intro h rest; simp [newLines, String.join]
  | cons l ls ih =>
    intro h rest
    have e1 : newLines (l :: ls) ++ rest =
        Event.emit (Signal.newLine l) :: (newLines ls ++ rest) := rfl
    rw [e1]
    simp only [run, step, emit_newLine]
    rw [ih, join_cons]
    simp [appendNewLine, String.append_assoc]

/-! ## Retention: `removeOldFilesIn` and `saveReportAndQuit` -/

/-- C3. With `mkpath` failing, on a missing (empty) cache directory where opening
fails too, `saveReportAndQuit` does not stop after `qApp->quit()`: it goes on to list
the directory, tries to open the report file, and calls `quit` a second time. -/
theorem saveReportAndQuit_mkpath_failure_falls_through :
    saveReportAndQuit noCacheDirEnv { shutdownSaveString := "frame0", deleteLaterCalled := false }
        { dir := [], calls := [] } =
      some ({ shutdownSaveString := "frame0", deleteLaterCalled := true },
            { dir := []
              calls := [Call.mkpath, Call.quit, Call.entryInfoList,
                Call.openFile "pid-7-app.kcrash", Call.deleteLater, Call.quit] }) := by
  decide

theorem shutdownSaveReport_eq (dir : List QFileInfo) :
    shutdownSaveReport dir =
      { shutdownHelper := some { shutdownSaveString := "", deleteLaterCalled := false }
        connections := (shutdownSaveReport []).connections
        world := { dir := dir, calls := [] } } := rfl

/-- The state after the `newLine` events and one terminal signal. -/
theorem run_terminal (env : Env) (dir : List QFileInfo) (lines : List String) (t : Terminal) :
    run env (shutdownSaveReport dir) (newLines lines ++ [Event.emit t.signal]) =
      some { shutdownHelper := some { shutdownSaveString := String.join lines,
                                       deleteLaterCalled := true }
             connections := (shutdownSaveReport []).connections
             world := { dir := dirAfterRun env dir (String.join lines)
                        calls := callsOfRun env dir (String.join lines) } } := by
  rw [shutdownSaveReport_eq, run_newLines]
  simp only [run, step, emit_terminal, String.empty_append, List.nil_append]

/-- The state after the `newLine` events, a terminal signal, a return to the event
loop, and a late terminal signal. -/
theorem run_terminal_late (env : Env) (dir : List QFileInfo) (lines : List String)
    (t t' : Terminal) :
    run env (shutdownSaveReport dir)
        (newLines lines ++ [Event.emit t.signal, Event.eventLoop, Event.emit t'.signal]) =
      some { shutdownHelper := none
             connections := (shutdownSaveReport []).connections
             world := { dir := dirAfterRun env dir (String.join lines)
                        calls := callsOfRun env dir (String.join lines) } } := by
  rw [shutdownSaveReport_eq, run_newLines]
  simp only [run, step, emit_terminal, eventLoop, if_true, emit_destroyed, String.empty_append,
    List.nil_append]

/-- The state after the `newLine` events and two terminal signals at once. -/
theorem run_terminal_twice (env : Env) (dir : List QFileInfo) (lines : List String)
    (t t' : Terminal) :
    run env (shutdownSaveReport dir)
        (newLines lines ++ [Event.emit t.signal, Event.emit t'.signal]) =
      some { shutdownHelper := some { shutdownSaveString := String.join lines,
                                       deleteLaterCalled := true }
             connections := (shutdownSaveReport []).connections
             world :=
               { dir := dirAfterRun env (dirAfterRun env dir (String.join lines))
                   (String.join lines)
                 calls := callsOfRun env dir (String.join lines) ++
                   callsOfRun env (dirAfterRun env dir (String.join lines))
                     (String.join lines) } } := by
  rw [shutdownSaveReport_eq, run_newLines]
  simp only [run, step, emit_terminal, String.empty_append, List.nil_append]

/-- C4. With the cache directory creatable and the report file opened, after
`newLine` for each of `lines` in turn and then one of `done`, `someError`,
`failedToStart`, the run returns, exactly one `write` was made, of the concatenation
of `lines` in order to the report file, and the directory holds the report as a
regular file with exactly that text. -/
theorem shutdown_report_is_concatenation (env : Env) (dir : List QFileInfo)
    (lines : List String) (t : Terminal)
    (hmk : env.mkpathOk = true)
    (hopen : canOpen env dir (defname env) = true) :
    ∃ s : System,
      run env (shutdownSaveReport dir) (newLines lines ++ [Event.emit t.signal]) = some s ∧
      writes s.world = [Call.write (defname env) (String.join lines)] ∧
      (∃ e ∈ s.world.dir, e.fileName = defname env) ∧
      (∀ e ∈ s.world.dir, e.fileName = defname env →
        e.isFile = true ∧ e.contents = String.join lines) := by
  have hop := canOpen_afterRemoval env dir (defname env) hopen
  refine ⟨_, run_terminal env dir lines t, ?_, ?_, ?_⟩
  · simp only [writes, writes_callsOfRun, hop, if_true]
  · simp only [dirAfterRun, hop, if_true, writeFile]
    exact ⟨_, List.mem_append_right _ (List.mem_singleton.mpr rfl), rfl⟩
  · intro e he hname
    simp only [dirAfterRun, hop, if_true, writeFile, List.mem_append, List.mem_filter,
      List.mem_singleton, bne_iff_ne] at he
    rcases he with he | he
    · exact absurd hname he.2
    · rw [he]; exact ⟨rfl, rfl⟩

/-- C4, at `newLine("frame0")`, `newLine("frame1")`, `done()`: the text written is
`frame0frame1`. -/
theorem shutdown_report_is_concatenation_witness :
    String.join ["frame0", "frame1"] = "frame0frame1" ∧
    ∃ s : System,
      run sampleEnv (shutdownSaveReport sampleDir)
        (newLines ["frame0", "frame1"] ++ [Event.emit Terminal.done.signal]) = some s ∧
      writes s.world = [Call.write (defname sampleEnv) (String.join ["frame0", "frame1"])] ∧
      (∃ e ∈ s.world.dir, e.fileName = defname sampleEnv) ∧
      (∀ e ∈ s.world.dir, e.fileName = defname sampleEnv →
        e.isFile = true ∧ e.contents = String.join ["frame0", "frame1"]) :=
  ⟨by decide,
    shutdown_report_is_concatenation sampleEnv sampleDir ["frame0", "frame1"] Terminal.done
      rfl (by decide)⟩

/-- C5 as stated fails: when `done` is followed at once by `someError`, the helper is
still alive and connected, and `saveReportAndQuit` runs a second time: it calls
`mkpath`, lists the directory, opens and writes the report again. -/
theorem done_then_someError_runs_finalizer_twice :
    (run sampleEnv (shutdownSaveReport [])
        [Event.emit Signal.done, Event.emit Signal.someError]).map
      (fun s => (finalizerRuns s.world, s.world.calls)) =
      some (2,
        [Call.mkpath, Call.entryInfoList, Call.openFile "pid-7-app.kcrash",
         Call.write "pid-7-app.kcrash" "", Call.deleteLater, Call.quit,
         Call.mkpath, Call.entryInfoList, Call.openFile "pid-7-app.kcrash",
         Call.write "pid-7-app.kcrash" "", Call.deleteLater, Call.quit]) := by
  decide

/-- C5, amended.  After `shutdownSaveReport` and any `newLine` events: (1) one
terminal signal, whichever of the three, runs the finalizer exactly once, with at
most one write; (2) a second terminal signal that arrives after control has
returned to the event loop (the helper is destroyed by then) changes nothing, so
the finalizer has run once; (3) a second terminal signal that arrives at once runs
the finalizer a second time, every write is of the same text to the same report
file, and every entry of the directory was there before or has the name of the
report, so that no second file is produced. -/
theorem finalizer_runs_once_per_terminal_signal (env : Env) (dir : List QFileInfo)
    (lines : List String) (t t' : Terminal) :
    (∃ s : System,
      run env (shutdownSaveReport dir) (newLines lines ++ [Event.emit t.signal]) = some s ∧
      finalizerRuns s.world = 1 ∧ (writes s.world).length ≤ 1 ∧
      (∃ s2 : System,
        run env (shutdownSaveReport dir)
          (newLines lines ++ [Event.emit t.signal, Event.eventLoop, Event.emit t'.signal]) =
            some s2 ∧
        s2.world = s.world ∧ finalizerRuns s2.world = 1)) ∧
    (∃ s : System,
      run env (shutdownSaveReport dir)
        (newLines lines ++ [Event.emit t.signal, Event.emit t'.signal]) = some s ∧
      finalizerRuns s.world = 2 ∧
      (∀ c ∈ writes s.world, c = Call.write (defname env) (String.join lines)) ∧
      (∀ e ∈ s.world.dir, e ∈ dir ∨ e.fileName = defname env)) := by
  have hcount := finalizerRuns_callsOfRun env dir (String.join lines)
  have hw := writes_callsOfRun env dir (String.join lines)
  constructor
  · refine ⟨_, run_terminal env dir lines t, hcount, ?_,
      _, run_terminal_late env dir lines t t', rfl, hcount⟩
    simp only [writes]
    rw [hw]
    split <;> simp
  · refine ⟨_, run_terminal_twice env dir lines t t', ?_, ?_, ?_⟩
    · simp only [finalizerRuns, List.count_append, finalizerRuns_callsOfRun]
    · intro c hc
      simp only [writes, List.filter_append, writes_callsOfRun, List.mem_append] at hc
      rcases hc with hc | hc <;> (split at hc <;> simp at hc; exact hc)
    · intro e he
      rcases mem_dirAfterRun env _ _ e he with h1 | h1
      · exact mem_dirAfterRun env _ _ e h1
      · exact Or.inr h1

/-! ## Environment overrides and `init` -/

/-- C6 as stated fails when the override variable is present but empty: the first
call does not return its (empty) value but the production address. -/
theorem kdeBugzillaURL_empty_override :
    emptyOverride "DRKONQI_KDE_BUGZILLA_URL" = some "" ∧
    (kdeBugzillaURL emptyOverride "").1 = "https://bugs.kde.org/" ∧
    (kdeBugzillaURL emptyOverride "").1 ≠ "" := by
  decide

/-- C6, amended.  On its first call (the static still empty) `kdeBugzillaURL`
returns the value of `DRKONQI_KDE_BUGZILLA_URL` whenever that variable is present
with a non-empty value, whether or not `DRKONQI_TEST_MODE` is set; when the variable
is absent or empty it returns `https://bugstest.kde.org/` if `DRKONQI_TEST_MODE` is
set and `https://bugs.kde.org/` if it is not. -/
theorem kdeBugzillaURL_first_call (e : Environment) :
    (∀ v, e "DRKONQI_KDE_BUGZILLA_URL" = some v → v ≠ "" → (kdeBugzillaURL e "").1 = v) ∧
    ((e "DRKONQI_KDE_BUGZILLA_URL" = none ∨ e "DRKONQI_KDE_BUGZILLA_URL" = some "") →
      ((e "DRKONQI_TEST_MODE").isSome = true →
        (kdeBugzillaURL e "").1 = "https://bugstest.kde.org/") ∧
      ((e "DRKONQI_TEST_MODE").isSome = false →
        (kdeBugzillaURL e "").1 = "https://bugs.kde.org/")) := by
  constructor
  · intro v hv hne
    simp [kdeBugzillaURL, qgetenv, hv, hne]
  · intro h
    have hq : qgetenv e "DRKONQI_KDE_BUGZILLA_URL" = "" := by
      rcases h with h | h <;> simp [qgetenv, h]
    constructor
    · intro ht
      simp [kdeBugzillaURL, hq, qEnvironmentVariableIsSet, ht]
    · intro ht
      simp [kdeBugzillaURL, hq, qEnvironmentVariableIsSet, ht]

/-- C7. `DrKonqi::init` returns what the backend's `init` returns.  When that is
`false` nothing is enabled or scheduled.  When it is `true` and the base name is not
`drkonqi`, `KCrash::setDrKonqiEnabled(true)` is called once and no timer is started;
when the base name is `drkonqi`, `setDrKonqiEnabled` is not called and one timer of
10000 ms is started. -/
theorem init_spec (backendInit : Bool) (fakeExecutableBaseName : String) (st : CrashCatching) :
    (init backendInit fakeExecutableBaseName st).1 = backendInit ∧
    (backendInit = false → (init backendInit fakeExecutableBaseName st).2 = st) ∧
    (backendInit = true → fakeExecutableBaseName ≠ "drkonqi" →
      (init backendInit fakeExecutableBaseName st).2 =
        { setDrKonqiEnabled := st.setDrKonqiEnabled ++ [true], timers := st.timers }) ∧
    (backendInit = true → fakeExecutableBaseName = "drkonqi" →
      (init backendInit fakeExecutableBaseName st).2 =
        { setDrKonqiEnabled := st.setDrKonqiEnabled, timers := st.timers ++ [10000] }) := by
  cases backendInit <;> by_cases hn : fakeExecutableBaseName = "drkonqi" <;>
    simp [init, hn, EnableCrashCatchingDelayed]

/-- C8. After a first call under environment `e1`, a call of `kdeBugzillaURL` under
any environment `e2` returns what the first call returned and leaves the static as
it is (so the same holds for every later call), and the value is not the empty
string; likewise a call of `ignoreQuality` under `e2` after a first call under `e1`
returns what the first call returned and leaves the static as it is. -/
theorem overrides_read_once (e1 e2 : Environment) :
    kdeBugzillaURL e2 (kdeBugzillaURL e1 "").2 =
      ((kdeBugzillaURL e1 "").1, (kdeBugzillaURL e1 "").2) ∧
    (kdeBugzillaURL e1 "").1 ≠ "" ∧
    (kdeBugzillaURL e2 (kdeBugzillaURL e1 "").2).1 ≠ "" ∧
    ignoreQuality e2 (ignoreQuality e1 none).2 =
      ((ignoreQuality e1 none).1, (ignoreQuality e1 none).2) := by
  have key : (kdeBugzillaURL e1 "").2 = (kdeBugzillaURL e1 "").1 ∧
      (kdeBugzillaURL e1 "").1 ≠ "" := by
    unfold kdeBugzillaURL
    by_cases h1 : qgetenv e1 "DRKONQI_KDE_BUGZILLA_URL" = ""
    · by_cases h2 : qEnvironmentVariableIsSet e1 "DRKONQI_TEST_MODE" = true
      · simp [h1, h2]
      · simp [h1, h2]
    · simp [h1]
  obtain ⟨hst, hne⟩ := key
  have hsecond : kdeBugzillaURL e2 (kdeBugzillaURL e1 "").2 =
      ((kdeBugzillaURL e1 "").1, (kdeBugzillaURL e1 "").2) := by
    rw [hst]
    generalize (kdeBugzillaURL e1 "").1 = u at hne ⊢
    simp [kdeBugzillaURL, hne]
  refine ⟨hsecond, hne, ?_, ?_⟩
  · rw [hsecond]; exact hne
  · simp [ignoreQuality]

end DrKonqi

namespace Bugzilla

/-! ## Registration of the list converters -/

/-- C10. For `N ≥ 1`, `N` calls of `Product::registerVariantConverters` leave the
flag and the registry as one call does, from whatever state; a call in a state
reached by a call changes nothing; and from the state at process start the flag
ends up set and each of the two list converters has been registered exactly once. -/
theorem registerVariantConverters_idempotent (N : Nat) (hN : 1 ≤ N) :
    (∀ r : Registry, Product.registerVariantConverters^[N] r = Product.registerVariantConverters r) ∧
    (∀ r : Registry, Product.registerVariantConverters (Product.registerVariantConverters r) =
        Product.registerVariantConverters r) ∧
    (Product.registerVariantConverters^[N] Registry.initial).convertersRegistered = true ∧
    (Product.registerVariantConverters^[N] Registry.initial).registerConverter =
        [Converter.toProductComponentList, Converter.toProductVersionList] ∧
    (Product.registerVariantConverters^[N] Registry.initial).registerConverter.count
        Converter.toProductComponentList = 1 ∧
    (Product.registerVariantConverters^[N] Registry.initial).registerConverter.count
        Converter.toProductVersionList = 1 := by
  have hidem : ∀ r : Registry, Product.registerVariantConverters (Product.registerVariantConverters r) =
      Product.registerVariantConverters r := by
    intro r
    unfold Product.registerVariantConverters
    cases h : r.convertersRegistered <;> simp [h]
  have hiter : ∀ (n : Nat) (r : Registry), Product.registerVariantConverters^[n + 1] r =
      Product.registerVariantConverters r := by
    intro n r
    induction n with
    | zero => rfl
    | succ n ih => rw [Function.iterate_succ_apply', ih, hidem]
  obtain ⟨n, rfl⟩ : ∃ n, N = n + 1 := ⟨N - 1, by omega⟩
  refine ⟨hiter n, hidem, ?_, ?_, ?_, ?_⟩ <;> rw [hiter n] <;> decide

/-- C10, at `N = 3`. -/
theorem registerVariantConverters_idempotent_witness :
    (∀ r : Registry, Product.registerVariantConverters^[3] r = Product.registerVariantConverters r) ∧
    (∀ r : Registry, Product.registerVariantConverters (Product.registerVariantConverters r) =
        Product.registerVariantConverters r) ∧
    (Product.registerVariantConverters^[3] Registry.initial).convertersRegistered = true ∧
    (Product.registerVariantConverters^[3] Registry.initial).registerConverter =
        [Converter.toProductComponentList, Converter.toProductVersionList] ∧
    (Product.registerVariantConverters^[3] Registry.initial).registerConverter.count
        Converter.toProductComponentList = 1 ∧
    (Product.registerVariantConverters^[3] Registry.initial).registerConverter.count
        Converter.toProductVersionList = 1 :=
  registerVariantConverters_idempotent 3 (by decide)

/-! ## Determinism of materialization -/

theorem qobject_setProperty_comm (M : MetaObject) (o : QObject) (n1 n2 : String)
    (v1 v2 : QVariant) (hne : n1 ≠ n2) :
    QObject.setProperty M (QObject.setProperty M o n1 v1) n2 v2 =
      QObject.setProperty M (QObject.setProperty M o n2 v2) n1 v1 := by
  cases h1 : M n1 with
  | none =>
    cases h2 : M n2 with
    | none =>
      simp only [QObject.setProperty, h1, h2]
      rw [Function.update_comm hne.symm]
    | some c2 =>
      cases hc2 : c2 v2 <;> simp only [QObject.setProperty, h1, h2, hc2]
  | some c1 =>
    cases h2 : M n2 with
    | none =>
      cases hc1 : c1 v1 <;> simp only [QObject.setProperty, h1, h2, hc1]
    | some c2 =>
      cases hc1 : c1 v1 <;> cases hc2 : c2 v2 <;>
        simp only [QObject.setProperty, h1, h2, hc1, hc2]
      rw [Function.update_comm hne.symm]

/-- The effect of `setProperty` on a `Product`, by the property the name stands for. -/
theorem product_setProperty_active (m : ProductMeta) (r : Registry) (p : Product)
    (n : String) (v : QVariant) (h : n = m.is_active) :
    Product.setProperty m r p n v =
      { p with m_active := (m.toBool v).getD p.m_active } := by
  unfold Product.setProperty
  rw [if_pos h]
  cases m.toBool v <;> rfl

theorem product_setProperty_components (m : ProductMeta) (r : Registry) (p : Product)
    (n : String) (v : QVariant) (h1 : n ≠ m.is_active) (h : n = m.components) :
    Product.setProperty m r p n v =
      { p with m_components :=
          match v with
          | QVariant.list l =>
            if Converter.toProductComponentList ∈ r.registerConverter then
              toProductComponentList m l
            else p.m_components
          | _ => p.m_components } := by
  unfold Product.setProperty
  rw [if_neg h1, if_pos h]
  cases v with
  | list l =>
    by_cases hc : Converter.toProductComponentList ∈ r.registerConverter <;>
      simp [hc, Product.setComponents]
  | _ => rfl

theorem product_setProperty_versions (m : ProductMeta) (r : Registry) (p : Product)
    (n : String) (v : QVariant) (h1 : n ≠ m.is_active) (h2 : n ≠ m.components)
    (h : n = m.versions) :
    Product.setProperty m r p n v =
      { p with m_versions :=
          match v with
          | QVariant.list l =>
            if Converter.toProductVersionList ∈ r.registerConverter then
              toProductVersionList m l
            else p.m_versions
          | _ => p.m_versions } := by
  unfold Product.setProperty
  rw [if_neg h1, if_neg h2, if_pos h]
  cases v with
  | list l =>
    by_cases hc : Converter.toProductVersionList ∈ r.registerConverter <;>
      simp [hc, Product.setVersions]
  | _ => rfl

theorem product_setProperty_other (m : ProductMeta) (r : Registry) (p : Product)
    (n : String) (v : QVariant) (h1 : n ≠ m.is_active) (h2 : n ≠ m.components)
    (h3 : n ≠ m.versions) :
    Product.setProperty m r p n v =
      { p with toQObject := QObject.setProperty m.members p.toQObject n v } := by
  unfold Product.setProperty
  rw [if_neg h1, if_neg h2, if_neg h3]

theorem product_setProperty_comm (m : ProductMeta) (r : Registry) (p : Product)
    (n1 n2 : String) (v1 v2 : QVariant) (hne : n1 ≠ n2) :
    Product.setProperty m r (Product.setProperty m r p n1 v1) n2 v2 =
      Product.setProperty m r (Product.setProperty m r p n2 v2) n1 v1 := by
  by_cases a1 : n1 = m.is_active
  · have a2 : n2 ≠ m.is_active := fun h => hne (a1.trans h.symm)
    rw [product_setProperty_active m r p n1 v1 a1]
    by_cases b2 : n2 = m.components
    · rw [product_setProperty_components m r _ n2 v2 a2 b2,
        product_setProperty_components m r _ n2 v2 a2 b2,
        product_setProperty_active m r _ n1 v1 a1]
    · by_cases c2 : n2 = m.versions
      · rw [product_setProperty_versions m r _ n2 v2 a2 b2 c2,
          product_setProperty_versions m r _ n2 v2 a2 b2 c2,
          product_setProperty_active m r _ n1 v1 a1]
      · rw [product_setProperty_other m r _ n2 v2 a2 b2 c2,
          product_setProperty_other m r _ n2 v2 a2 b2 c2,
          product_setProperty_active m r _ n1 v1 a1]
  · by_cases b1 : n1 = m.components
    · have b2 : n2 ≠ m.components := fun h => hne (b1.trans h.symm)
      rw [product_setProperty_components m r p n1 v1 a1 b1]
      by_cases a2 : n2 = m.is_active
      · rw [product_setProperty_active m r _ n2 v2 a2,
          product_setProperty_active m r _ n2 v2 a2,
          product_setProperty_components m r _ n1 v1 a1 b1]
      · by_cases c2 : n2 = m.versions
        · rw [product_setProperty_versions m r _ n2 v2 a2 b2 c2,
            product_setProperty_versions m r _ n2 v2 a2 b2 c2,
            product_setProperty_components m r _ n1 v1 a1 b1]
        · rw [product_setProperty_other m r _ n2 v2 a2 b2 c2,
            product_setProperty_other m r _ n2 v2 a2 b2 c2,
            product_setProperty_components m r _ n1 v1 a1 b1]
    · by_cases c1 : n1 = m.versions
      · have c2 : n2 ≠ m.versions := fun h => hne (c1.trans h.symm)
        rw [product_setProperty_versions m r p n1 v1 a1 b1 c1]
        by_cases a2 : n2 = m.is_active
        · rw [product_setProperty_active m r _ n2 v2 a2,
            product_setProperty_active m r _ n2 v2 a2,
            product_setProperty_versions m r _ n1 v1 a1 b1 c1]
        · by_cases b2 : n2 = m.components
          · rw [product_setProperty_components m r _ n2 v2 a2 b2,
              product_setProperty_components m r _ n2 v2 a2 b2,
              product_setProperty_versions m r _ n1 v1 a1 b1 c1]
          · rw [product_setProperty_other m r _ n2 v2 a2 b2 c2,
              product_setProperty_other m r _ n2 v2 a2 b2 c2,
              product_setProperty_versions m r _ n1 v1 a1 b1 c1]
      · rw [product_setProperty_other m r p n1 v1 a1 b1 c1]
        by_cases a2 : n2 = m.is_active
        · rw [product_setProperty_active m r _ n2 v2 a2,
            product_setProperty_active m r _ n2 v2 a2,
            product_setProperty_other m r _ n1 v1 a1 b1 c1]
        · by_cases b2 : n2 = m.components
          · rw [product_setProperty_components m r _ n2 v2 a2 b2,
              product_setProperty_components m r _ n2 v2 a2 b2,
              product_setProperty_other m r _ n1 v1 a1 b1 c1]
          · by_cases c2 : n2 = m.versions
            · rw [product_setProperty_versions m r _ n2 v2 a2 b2 c2,
                product_setProperty_versions m r _ n2 v2 a2 b2 c2,
                product_setProperty_other m r _ n1 v1 a1 b1 c1]
            · rw [product_setProperty_other m r _ n2 v2 a2 b2 c2,
                product_setProperty_other m r _ n2 v2 a2 b2 c2,
                product_setProperty_other m r _ n1 v1 a1 b1 c1]
              simp only []
              rw [qobject_setProperty_comm m.members p.toQObject n1 n2 v1 v2 hne]

/-- Writing the entries of a record in two orders gives the same object, when the
property names of its keys are pairwise distinct. -/
theorem foldl_setProperty_perm {σ : Type} (f : σ → String → QVariant → σ)
    (hcomm : ∀ (s : σ) (n1 n2 : String) (v1 v2 : QVariant), n1 ≠ n2 →
      f (f s n1 v1) n2 v2 = f (f s n2 v2) n1 v1)
    (o1 o2 : QVariantHash) (hperm : o1.Perm o2)
    (hkeys : (o1.map (fun it => qPrintable it.1)).Nodup) (init : σ) :
    o1.foldl (fun s it => f s (qPrintable it.1) it.2) init =
      o2.foldl (fun s it => f s (qPrintable it.1) it.2) init := by
  apply hperm.foldl_eq'
  intro x hx y hy z
  by_cases hxy : qPrintable x.1 = qPrintable y.1
  · have : x = y := List.inj_on_of_nodup_map hkeys hx hy hxy
    rw [this]
  · exact hcomm z _ _ _ _ hxy

theorem mem_registerVariantConverters (r : Registry) (hr : r.consistent) :
    Converter.toProductComponentList ∈ (Product.registerVariantConverters r).registerConverter ∧
    Converter.toProductVersionList ∈ (Product.registerVariantConverters r).registerConverter := by
  unfold Product.registerVariantConverters
  cases h : r.convertersRegistered
  · simp
  · simpa using hr h

/-- A record with the entry `x` somewhere is, as far as the object built goes, the
record with `x` written last. -/
theorem foldl_setProperty_last {σ : Type} (f : σ → String → QVariant → σ)
    (hcomm : ∀ (s : σ) (n1 n2 : String) (v1 v2 : QVariant), n1 ≠ n2 →
      f (f s n1 v1) n2 v2 = f (f s n2 v2) n1 v1)
    (o : QVariantHash) (x : String × QVariant) (hx : x ∈ o)
    (hkeys : (o.map (fun it => qPrintable it.1)).Nodup) (init : σ) :
    ∃ s : σ, o.foldl (fun s it => f s (qPrintable it.1) it.2) init = f s (qPrintable x.1) x.2 := by
  obtain ⟨a, b, rfl⟩ := List.append_of_mem hx
  have hp : (a ++ x :: b).Perm ((a ++ b) ++ [x]) :=
    List.perm_middle.trans (List.perm_append_singleton x (a ++ b)).symm
  rw [foldl_setProperty_perm f hcomm _ _ hp hkeys init, List.foldl_append]
  exact ⟨_, rfl⟩

/-- C9 as stated fails for keys that are distinct but have the same property name:
the record with keys `is_active` and `is_active` followed by NUL and `x` yields
`m_active = false` in one iteration order and `m_active = true` in the other. -/
theorem materialization_order_matters_for_equal_property_names :
    (nulRecord.map (fun it => it.1)).Nodup ∧
    nulRecord.Perm nulRecordSwapped ∧
    (Product.Product sampleMeta Registry.initial nulRecord).1.m_active = false ∧
    (Product.Product sampleMeta Registry.initial nulRecordSwapped).1.m_active = true :=
  ⟨by decide, List.Perm.swap _ _ _, by decide, by decide⟩

/-- C9, amended.  For a record whose keys have pairwise distinct property names
(their `qPrintable` forms) and any two iteration orders of its entries, the two
`Product` objects built are equal, and so are the two `ProductVersion` and the two
`ProductComponent` objects; and, the registry being consistent, a list held under
the name of the components (versions) property becomes the list of the
`ProductComponent` (`ProductVersion`) objects built from its elements, one per
element and in the same order. -/
theorem materialization_deterministic (m : ProductMeta) (r : Registry) (o1 o2 : QVariantHash)
    (hperm : o1.Perm o2)
    (hkeys : (o1.map (fun it => qPrintable it.1)).Nodup) :
    (Product.Product m r o1).1 = (Product.Product m r o2).1 ∧
    ProductVersion.ProductVersion m.version o1 = ProductVersion.ProductVersion m.version o2 ∧
    ProductComponent.ProductComponent m.component o1 =
      ProductComponent.ProductComponent m.component o2 ∧
    (r.consistent → ∀ (k : String) (v : List QVariant), (k, QVariant.list v) ∈ o1 →
      qPrintable k = m.components → m.components ≠ m.is_active →
      (Product.Product m r o2).1.m_components =
          v.map (fun variant => ProductComponent.ProductComponent m.component variant.toHash) ∧
        (Product.Product m r o2).1.m_components.length = v.length) ∧
    (r.consistent → ∀ (k : String) (v : List QVariant), (k, QVariant.list v) ∈ o1 →
      qPrintable k = m.versions → m.versions ≠ m.is_active → m.versions ≠ m.components →
      (Product.Product m r o2).1.m_versions =
          v.map (fun variant => ProductVersion.ProductVersion m.version variant.toHash) ∧
        (Product.Product m r o2).1.m_versions.length = v.length) := by
  have hP : (Product.Product m r o1).1 = (Product.Product m r o2).1 :=
    foldl_setProperty_perm (Product.setProperty m (Product.registerVariantConverters r))
      (product_setProperty_comm m (Product.registerVariantConverters r)) o1 o2 hperm hkeys _
  have hQ : ∀ M : MetaObject,
      o1.foldl (fun o it => QObject.setProperty M o (qPrintable it.1) it.2) QObject.fresh =
        o2.foldl (fun o it => QObject.setProperty M o (qPrintable it.1) it.2) QObject.fresh :=
    fun M => foldl_setProperty_perm (QObject.setProperty M) (qobject_setProperty_comm M)
      o1 o2 hperm hkeys _
  have hfold : (Product.Product m r o1).1 =
      o1.foldl (fun p it => Product.setProperty m (Product.registerVariantConverters r) p
        (qPrintable it.1) it.2) (Product.fresh m) := rfl
  refine ⟨hP, ?_, ?_, ?_, ?_⟩
  · simp only [ProductVersion.ProductVersion, hQ]
  · simp only [ProductComponent.ProductComponent, hQ]
  · intro hr k v hmem hk hne
    obtain ⟨s, hs⟩ := foldl_setProperty_last (Product.setProperty m (Product.registerVariantConverters r))
      (product_setProperty_comm m (Product.registerVariantConverters r)) o1 _ hmem hkeys (Product.fresh m)
    have hc : (Product.Product m r o1).1.m_components = toProductComponentList m v := by
      rw [hfold, hs, product_setProperty_components m _ s _ _ (hk ▸ hne) hk]
      simp [(mem_registerVariantConverters r hr).1]
    rw [← hP, hc]
    exact ⟨rfl, by simp [toProductComponentList]⟩
  · intro hr k v hmem hk hne1 hne2
    obtain ⟨s, hs⟩ := foldl_setProperty_last (Product.setProperty m (Product.registerVariantConverters r))
      (product_setProperty_comm m (Product.registerVariantConverters r)) o1 _ hmem hkeys (Product.fresh m)
    have hc : (Product.Product m r o1).1.m_versions = toProductVersionList m v := by
      rw [hfold, hs, product_setProperty_versions m _ s _ _ (hk ▸ hne1) (hk ▸ hne2) hk]
      simp [(mem_registerVariantConverters r hr).2]
    rw [← hP, hc]
    exact ⟨rfl, by simp [toProductVersionList]⟩

/-- C9, amended, at `sampleRecord` and the same entries with the first two
exchanged. -/
theorem materialization_deterministic_witness :
    (sampleRecord.map (fun it => qPrintable it.1)).Nodup ∧
    (Product.Product sampleMeta Registry.initial sampleRecord).1 =
      (Product.Product sampleMeta Registry.initial sampleRecordSwapped).1 ∧
    ProductVersion.ProductVersion sampleMeta.version sampleRecord =
      ProductVersion.ProductVersion sampleMeta.version sampleRecordSwapped ∧
    ProductComponent.ProductComponent sampleMeta.component sampleRecord =
      ProductComponent.ProductComponent sampleMeta.component sampleRecordSwapped :=
  have h := materialization_deterministic sampleMeta Registry.initial sampleRecord
    sampleRecordSwapped (List.Perm.swap _ _ _) (by decide)
  ⟨by decide, h.1, h.2.1, h.2.2.1⟩

end Bugzilla
